import Mathlib

/-!
Shallow embedding of the ASCII software rasterizer (src/main.cpp).
The C++ `float` arithmetic is modelled over the exact reals; `std::sqrt`
becomes `Real.sqrt`, `static_cast<int>` on a float becomes truncation
toward zero, and the per-frame rasterization loop of `main` becomes a
fold over the clamped integer bounding box of the projected triangle.
-/

namespace AsciiRenderer

/-- Vec3 from src/main.cpp lines 20-38: three real components. -/
structure Vec3 where
  x : ℝ
  y : ℝ
  z : ℝ

namespace Vec3

@[simp] lemma mk_x (a b c : ℝ) : (Vec3.mk a b c).x = a := rfl

@[simp] lemma mk_y (a b c : ℝ) : (Vec3.mk a b c).y = b := rfl

@[simp] lemma mk_z (a b c : ℝ) : (Vec3.mk a b c).z = c := rfl

/-- Vec3::add (line 24). -/
def add (a b : Vec3) : Vec3 := ⟨a.x + b.x, a.y + b.y, a.z + b.z⟩

/-- Vec3::subtract (line 25). -/
def subtract (a b : Vec3) : Vec3 := ⟨a.x - b.x, a.y - b.y, a.z - b.z⟩

/-- Vec3::scale (line 26). -/
def scale (v : Vec3) (s : ℝ) : Vec3 := ⟨v.x * s, v.y * s, v.z * s⟩

/-- Vec3::dot (line 27). -/
def dot (a b : Vec3) : ℝ := a.x * b.x + a.y * b.y + a.z * b.z

/-- Vec3::cross (lines 28-31). -/
def cross (a b : Vec3) : Vec3 :=
  ⟨a.y * b.z - a.z * b.y, a.z * b.x - a.x * b.z, a.x * b.y - a.y * b.x⟩

/-- Vec3::length (line 32): `std::sqrt(dot(v, v))`. -/
noncomputable def length (v : Vec3) : ℝ := Real.sqrt (dot v v)

/-- Vec3::normalize (lines 33-37): `len > 0 ? scale(v, 1/len) : {0,0,0}`. -/
noncomputable def normalize (v : Vec3) : Vec3 :=
  if length v > 0 then scale v (1 / length v) else ⟨0, 0, 0⟩

end Vec3

/-- Vec4 from src/main.cpp lines 40-43. -/
structure Vec4 where
  x : ℝ
  y : ℝ
  z : ℝ
  w : ℝ

namespace Vec4

@[simp] lemma mk4_x (a b c d : ℝ) : (Vec4.mk a b c d).x = a := rfl

@[simp] lemma mk4_y (a b c d : ℝ) : (Vec4.mk a b c d).y = b := rfl

@[simp] lemma mk4_z (a b c d : ℝ) : (Vec4.mk a b c d).z = c := rfl

@[simp] lemma mk4_w (a b c d : ℝ) : (Vec4.mk a b c d).w = d := rfl

end Vec4

/-- Mat4 from src/main.cpp lines 45-47: sixteen reals in column-major
order, entry `m[col*4 + row]`. -/
structure Mat4 where
  m : Fin 16 → ℝ

namespace Mat4

/-- Mat4::identity (lines 49-54): zero matrix with ones at 0, 5, 10, 15. -/
def identity : Mat4 :=
  ⟨fun i => if i.val = 0 ∨ i.val = 5 ∨ i.val = 10 ∨ i.val = 15 then 1 else 0⟩

/-- Mat4::transform (lines 75-83): homogeneous matrix-vector multiply. -/
def transform (mat : Mat4) (v : Vec4) : Vec4 :=
  ⟨mat.m 0 * v.x + mat.m 4 * v.y + mat.m 8 * v.z + mat.m 12 * v.w,
   mat.m 1 * v.x + mat.m 5 * v.y + mat.m 9 * v.z + mat.m 13 * v.w,
   mat.m 2 * v.x + mat.m 6 * v.y + mat.m 10 * v.z + mat.m 14 * v.w,
   mat.m 3 * v.x + mat.m 7 * v.y + mat.m 11 * v.z + mat.m 15 * v.w⟩

end Mat4

/-- Truncation toward zero, the semantics of C++ `static_cast<int>` on a
floating value (lines 145, 349-352). -/
noncomputable def truncToInt (x : ℝ) : ℤ := if 0 ≤ x then ⌊x⌋ else ⌈x⌉

/-- The fixed glyph ramp `" .:-=+*#%@"` (dark to light), line 144. -/
def ascii_chars : List Char := [' ', '.', ':', '-', '=', '+', '*', '#', '%', '@']

/-- get_ascii_char (src/main.cpp lines 142-148): the glyph index is
`static_cast<int>(intensity * (length - 1))`, clamped to `[0, length-1]`. -/
noncomputable def get_ascii_char (intensity : ℝ) : Char :=
  let index : ℤ := truncToInt (intensity * ((ascii_chars.length : ℝ) - 1))
  let index2 : ℤ := max 0 (min ((ascii_chars.length : ℤ) - 1) index)
  ascii_chars.getD index2.toNat ' '

/-- Modelled from the spec: glyph selection by
`index = round(intensity * (rampLength - 1))`, clamped to valid bounds —
the spec's wording of the glyph map, for comparison with `get_ascii_char`. -/
noncomputable def get_ascii_char_spec (intensity : ℝ) : Char :=
  let index : ℤ := round (intensity * ((ascii_chars.length : ℝ) - 1))
  let index2 : ℤ := max 0 (min ((ascii_chars.length : ℤ) - 1) index)
  ascii_chars.getD index2.toNat ' '

/-- Denominator `d00 * d11 - d01 * d01` of the barycentric solve
(src/main.cpp line 161). -/
def baryDenom (a b c : Vec3) : ℝ :=
  Vec3.dot (Vec3.subtract b a) (Vec3.subtract b a)
      * Vec3.dot (Vec3.subtract c a) (Vec3.subtract c a)
    - Vec3.dot (Vec3.subtract b a) (Vec3.subtract c a)
      * Vec3.dot (Vec3.subtract b a) (Vec3.subtract c a)

/-- barycentric (src/main.cpp lines 151-168): barycentric coordinates of
`p` in triangle `a b c`; returns `(-1,-1,-1)` when the denominator is
nearly zero (degenerate triangle). -/
noncomputable def barycentric (p a b c : Vec3) : Vec3 :=
  let v0 := Vec3.subtract b a
  let v1 := Vec3.subtract c a
  let v2 := Vec3.subtract p a
  let d00 := Vec3.dot v0 v0
  let d01 := Vec3.dot v0 v1
  let d11 := Vec3.dot v1 v1
  let d20 := Vec3.dot v2 v0
  let d21 := Vec3.dot v2 v1
  let denom := d00 * d11 - d01 * d01
  if |denom| < 1e-5 then ⟨-1, -1, -1⟩
  else
    let v := (d11 * d20 - d01 * d21) / denom
    let w := (d00 * d21 - d01 * d20) / denom
    ⟨1 - v - w, v, w⟩

/-- The camera position of the render loop (src/main.cpp line 259). -/
def camera_pos : Vec3 := ⟨0, 2, -5⟩

/-- The light direction of the render loop (src/main.cpp line 262). -/
noncomputable def light_direction : Vec3 := Vec3.normalize ⟨0.5, -1, -1⟩

/-- Command-line handling of main (src/main.cpp lines 172-180): with
fewer than 3 argv entries the program prints a usage line on stderr and
returns 1 (modelled as `none`); otherwise it proceeds with
`argv[1]` as the model path and `argv[2]` as the font path. -/
def parseArgs (argv : List String) : Option (String × String) :=
  if argv.length < 3 then none else some (argv.getD 1 "", argv.getD 2 "")

/-- The frame buffer and depth buffer (src/main.cpp lines 256-257),
modelled as total functions on the flat index `y * SCREEN_WIDTH + x`. -/
structure Buffers where
  depth : ℤ → ℝ
  chars : ℤ → Char

/-- Buffers as reset at the start of a frame (src/main.cpp lines 272-273):
depth 0 everywhere (sentinel for the 1/w test), blank glyph everywhere. -/
def clearedBuffers : Buffers := ⟨fun _ => 0, fun _ => ' '⟩

/-- Flat buffer index `y * SCREEN_WIDTH + x` (src/main.cpp line 366). -/
def flatIdx (W x y : ℤ) : ℤ := y * W + x

/-- The two stores of the depth-test success branch
(src/main.cpp lines 368-369). -/
def writeCell (b : Buffers) (i : ℤ) (d : ℝ) (g : Char) : Buffers :=
  ⟨fun j => if j = i then d else b.depth j, fun j => if j = i then g else b.chars j⟩

/-- Cell-center sample point `(x + 0.5, y + 0.5, 0)` (src/main.cpp line 358). -/
def samplePoint (x y : ℤ) : Vec3 := ⟨(x : ℝ) + 0.5, (y : ℝ) + 0.5, 0⟩

/-- Body of the per-pixel loop (src/main.cpp lines 358-370): barycentric
inside test, perspective-correct interpolation of 1/w, strict depth test. -/
noncomputable def shadePixel (W : ℤ) (s0 s1 s2 : Vec3) (iw0 iw1 iw2 : ℝ)
    (g : Char) (b : Buffers) (x y : ℤ) : Buffers :=
  let bc := barycentric (samplePoint x y) s0 s1 s2
  if bc.x < 0 ∨ bc.y < 0 ∨ bc.z < 0 then b
  else
    let iw := bc.x * iw0 + bc.y * iw1 + bc.z * iw2
    if iw > b.depth (flatIdx W x y) then writeCell b (flatIdx W x y) iw g else b

/-- The inclusive integer range `[lo, hi]` traversed by a C++
`for (i = lo; i <= hi; ++i)` loop. -/
def intRange (lo hi : ℤ) : List ℤ :=
  (List.range (hi + 1 - lo).toNat).map (fun i : ℕ => lo + (i : ℤ))

/-- The nested bounding-box scan loops (src/main.cpp lines 354-372). -/
noncomputable def rasterRows (W : ℤ) (s0 s1 s2 : Vec3) (iw0 iw1 iw2 : ℝ)
    (g : Char) (minX maxX minY maxY : ℤ) (b : Buffers) : Buffers :=
  (intRange minY maxY).foldl
    (fun acc y =>
      (intRange minX maxX).foldl
        (fun acc2 x => shadePixel W s0 s1 s2 iw0 iw1 iw2 g acc2 x y) acc)
    b

/-- Clip-space position of a world vertex (src/main.cpp line 329):
the model-view-projection matrix applied to the vertex with w = 1. -/
def clipVert (mvp : Mat4) (p : Vec3) : Vec4 :=
  mvp.transform ⟨p.x, p.y, p.z, 1⟩

/-- Per-vertex inverse clip w, `inv_w[i] = 1.0f / v_clip[i].w`
(src/main.cpp line 336). -/
noncomputable def invW (mvp : Mat4) (p : Vec3) : ℝ := 1 / (clipVert mvp p).w

/-- Normalized device coordinates of a vertex (src/main.cpp line 337). -/
noncomputable def ndcVert (mvp : Mat4) (p : Vec3) : Vec3 :=
  ⟨(clipVert mvp p).x * invW mvp p,
   (clipVert mvp p).y * invW mvp p,
   (clipVert mvp p).z * invW mvp p⟩

/-- Viewport transform to screen space (src/main.cpp lines 339-343);
the z component just carries the ndc z through for the barycentric call. -/
noncomputable def screenVert (W H : ℤ) (mvp : Mat4) (p : Vec3) : Vec3 :=
  ⟨((ndcVert mvp p).x + 1) * 0.5 * (W : ℝ),
   (1 - (ndcVert mvp p).y) * 0.5 * (H : ℝ),
   (ndcVert mvp p).z⟩

/-- Face normal `normalize(cross(v1 - v0, v2 - v0))`
(src/main.cpp lines 308-310). -/
noncomputable def faceNormal (v0 v1 v2 : Vec3) : Vec3 :=
  Vec3.normalize (Vec3.cross (Vec3.subtract v1 v0) (Vec3.subtract v2 v0))

/-- View vector `normalize(v_world[0] - camera_pos)` — from the camera
toward the triangle's first vertex (src/main.cpp line 311). -/
noncomputable def viewVector (cam v0 : Vec3) : Vec3 :=
  Vec3.normalize (Vec3.subtract v0 cam)

/-- Flat-shaded glyph of a triangle (src/main.cpp lines 316-318):
intensity `dot(normal, -light)` clamped below by the 0.1 ambient floor,
then mapped through `get_ascii_char`. -/
noncomputable def triangleGlyph (light v0 v1 v2 : Vec3) : Char :=
  get_ascii_char (max 0.1 (Vec3.dot (faceNormal v0 v1 v2) (Vec3.scale light (-1))))

/-- Left edge of the clamped pixel bounding box (src/main.cpp line 349):
`max(0, static_cast<int>(min of screen xs))`. -/
noncomputable def bboxMinX (W H : ℤ) (mvp : Mat4) (v0 v1 v2 : Vec3) : ℤ :=
  max 0 (truncToInt (min (min (screenVert W H mvp v0).x (screenVert W H mvp v1).x)
    (screenVert W H mvp v2).x))

/-- Right edge of the clamped pixel bounding box (src/main.cpp line 350):
`min(W - 1, static_cast<int>(ceil of max of screen xs))`; the cast of the
already integral ceil value is exact. -/
noncomputable def bboxMaxX (W H : ℤ) (mvp : Mat4) (v0 v1 v2 : Vec3) : ℤ :=
  min (W - 1) (truncToInt ((⌈max (max (screenVert W H mvp v0).x (screenVert W H mvp v1).x)
    (screenVert W H mvp v2).x⌉ : ℤ) : ℝ))

/-- Top edge of the clamped pixel bounding box (src/main.cpp line 351). -/
noncomputable def bboxMinY (W H : ℤ) (mvp : Mat4) (v0 v1 v2 : Vec3) : ℤ :=
  max 0 (truncToInt (min (min (screenVert W H mvp v0).y (screenVert W H mvp v1).y)
    (screenVert W H mvp v2).y))

/-- Bottom edge of the clamped pixel bounding box (src/main.cpp line 352). -/
noncomputable def bboxMaxY (W H : ℤ) (mvp : Mat4) (v0 v1 v2 : Vec3) : ℤ :=
  min (H - 1) (truncToInt ((⌈max (max (screenVert W H mvp v0).y (screenVert W H mvp v1).y)
    (screenVert W H mvp v2).y⌉ : ℤ) : ℝ))

/-- Processing of one triangle by the render loop
(src/main.cpp lines 307-372): back-face cull, flat shading, clip
transform with behind-camera rejection, perspective divide, viewport
transform, and bounding-box scan with depth test.  The screen size,
matrices, camera and light are the per-frame values of `main`, taken
here as parameters. -/
noncomputable def rasterizeTriangle (W H : ℤ) (mvp : Mat4) (cam light : Vec3)
    (v0 v1 v2 : Vec3) (b : Buffers) : Buffers :=
  if 0 ≤ Vec3.dot (faceNormal v0 v1 v2) (viewVector cam v0) then b
  else if (clipVert mvp v0).w ≤ 0 ∨ (clipVert mvp v1).w ≤ 0 ∨ (clipVert mvp v2).w ≤ 0 then b
  else
    rasterRows W (screenVert W H mvp v0) (screenVert W H mvp v1) (screenVert W H mvp v2)
      (invW mvp v0) (invW mvp v1) (invW mvp v2)
      (triangleGlyph light v0 v1 v2)
      (bboxMinX W H mvp v0 v1 v2) (bboxMaxX W H mvp v0 v1 v2)
      (bboxMinY W H mvp v0 v1 v2) (bboxMaxY W H mvp v0 v1 v2) b

/-- The inside test of the per-pixel loop at cell (x, y): no barycentric
coordinate of the cell center is negative (src/main.cpp line 361). -/
def insideAt (s0 s1 s2 : Vec3) (x y : ℤ) : Prop :=
  ¬ ((barycentric (samplePoint x y) s0 s1 s2).x < 0 ∨
     (barycentric (samplePoint x y) s0 s1 s2).y < 0 ∨
     (barycentric (samplePoint x y) s0 s1 s2).z < 0)

/-- Interpolated inverse w at cell (x, y) (src/main.cpp line 364). -/
noncomputable def interpAt (s0 s1 s2 : Vec3) (iw0 iw1 iw2 : ℝ) (x y : ℤ) : ℝ :=
  (barycentric (samplePoint x y) s0 s1 s2).x * iw0 +
  (barycentric (samplePoint x y) s0 s1 s2).y * iw1 +
  (barycentric (samplePoint x y) s0 s1 s2).z * iw2

/-- Inside test of a triangle's projected footprint at cell (x, y). -/
def cellInside (W H : ℤ) (mvp : Mat4) (v0 v1 v2 : Vec3) (x y : ℤ) : Prop :=
  insideAt (screenVert W H mvp v0) (screenVert W H mvp v1) (screenVert W H mvp v2) x y

/-- Interpolated inverse w of a triangle at cell (x, y). -/
noncomputable def cellInterp (W H : ℤ) (mvp : Mat4) (v0 v1 v2 : Vec3) (x y : ℤ) : ℝ :=
  interpAt (screenVert W H mvp v0) (screenVert W H mvp v1) (screenVert W H mvp v2)
    (invW mvp v0) (invW mvp v1) (invW mvp v2) x y

/-- A triangle passes the back-face cull of src/main.cpp line 312. -/
def notCulled (cam v0 v1 v2 : Vec3) : Prop :=
  Vec3.dot (faceNormal v0 v1 v2) (viewVector cam v0) < 0

/-- All three clip-space w components are positive, the negation of the
behind-camera rejection of src/main.cpp lines 330-334. -/
def wsPositive (mvp : Mat4) (v0 v1 v2 : Vec3) : Prop :=
  0 < (clipVert mvp v0).w ∧ 0 < (clipVert mvp v1).w ∧ 0 < (clipVert mvp v2).w

/-- Cell (x, y) lies in the clamped pixel bounding box of the triangle. -/
def inBBox (W H : ℤ) (mvp : Mat4) (v0 v1 v2 : Vec3) (x y : ℤ) : Prop :=
  bboxMinX W H mvp v0 v1 v2 ≤ x ∧ x ≤ bboxMaxX W H mvp v0 v1 v2 ∧
  bboxMinY W H mvp v0 v1 v2 ≤ y ∧ y ≤ bboxMaxY W H mvp v0 v1 v2

open scoped Classical

/-! ### Helper lemmas about the vector math -/

/-- Square-root evaluation helper: if `r ≥ 0` and `r ^ 2 = x` then
`Real.sqrt x = r`. -/
lemma sqrt_eq_of_sq {x r : ℝ} (hr : 0 ≤ r) (h : r ^ 2 = x) : Real.sqrt x = r := by
  subst h
  exact Real.sqrt_sq hr

lemma dot_self_nonneg (v : Vec3) : 0 ≤ Vec3.dot v v := by
  unfold Vec3.dot
  nlinarith [sq_nonneg v.x, sq_nonneg v.y, sq_nonneg v.z]

lemma length_nonneg (v : Vec3) : 0 ≤ Vec3.length v := Real.sqrt_nonneg _

lemma dot_scale_scale (a b : Vec3) (s t : ℝ) :
    Vec3.dot (Vec3.scale a s) (Vec3.scale b t) = s * t * Vec3.dot a b := by
  unfold Vec3.dot Vec3.scale
  ring

/-- If `dot a b ≠ 0` then `a` has positive squared length. -/
lemma dot_self_pos_of_dot_ne (a b : Vec3) (h : Vec3.dot a b ≠ 0) : 0 < Vec3.dot a a := by
  rcases lt_or_eq_of_le (dot_self_nonneg a) with hpos | heq
  · exact hpos
  · exfalso
    apply h
    have hx : a.x = 0 ∧ a.y = 0 ∧ a.z = 0 := by
      unfold Vec3.dot at heq
      refine ⟨?_, ?_, ?_⟩ <;> nlinarith [sq_nonneg a.x, sq_nonneg a.y, sq_nonneg a.z]
    unfold Vec3.dot
    rw [hx.1, hx.2.1, hx.2.2]
    ring

lemma dot_comm (a b : Vec3) : Vec3.dot a b = Vec3.dot b a := by
  unfold Vec3.dot
  ring

/-- Normalization evaluation: if `dot v v = r ^ 2` with `r > 0` then
`normalize v = scale v (1 / r)`. -/
lemma normalize_eq_of_sq {v : Vec3} {r : ℝ} (hr : 0 < r) (h : Vec3.dot v v = r ^ 2) :
    Vec3.normalize v = Vec3.scale v (1 / r) := by
  unfold Vec3.normalize
  have hlen : Vec3.length v = r := by
    unfold Vec3.length
    exact sqrt_eq_of_sq hr.le h.symm
  rw [hlen, if_pos hr]

/-- The sign of `dot (normalize a) (normalize b)`: nonnegative raw dot
products stay nonnegative after normalization. -/
lemma dot_normalize_nonneg {a b : Vec3} (h : 0 ≤ Vec3.dot a b) :
    0 ≤ Vec3.dot (Vec3.normalize a) (Vec3.normalize b) := by
  unfold Vec3.normalize
  split_ifs with h1 h2 h2
  · rw [dot_scale_scale]
    positivity
  · simp [Vec3.dot]
  · simp [Vec3.dot, Vec3.scale]
  · simp [Vec3.dot]

/-- The sign of `dot (normalize a) (normalize b)`: a strictly negative raw
dot product stays strictly negative after normalization. -/
lemma dot_normalize_neg {a b : Vec3} (h : Vec3.dot a b < 0) :
    Vec3.dot (Vec3.normalize a) (Vec3.normalize b) < 0 := by
  have ha : 0 < Vec3.length a := by
    unfold Vec3.length
    exact Real.sqrt_pos.mpr (dot_self_pos_of_dot_ne a b h.ne)
  have hb : 0 < Vec3.length b := by
    unfold Vec3.length
    refine Real.sqrt_pos.mpr (dot_self_pos_of_dot_ne b a ?_)
    rw [dot_comm]
    exact h.ne
  unfold Vec3.normalize
  rw [if_pos ha, if_pos hb, dot_scale_scale]
  have hpos : 0 < 1 / Vec3.length a * (1 / Vec3.length b) := by positivity
  exact mul_neg_of_pos_of_neg hpos h

/-! ### Helper lemmas about barycentric coordinates -/

/-- A near-zero denominator makes `barycentric` return `(-1, -1, -1)`,
whatever the query point (src/main.cpp lines 162-163). -/
lemma barycentric_of_denom_small {a b c : Vec3} (h : |baryDenom a b c| < 1e-5)
    (p : Vec3) : barycentric p a b c = ⟨-1, -1, -1⟩ := by
  unfold barycentric
  rw [if_pos]
  exact h

/-- At an inside cell the barycentric coordinates are nonnegative and sum
to one (the non-degenerate branch computes `u = 1 - v - w`). -/
lemma barycentric_inside_sum {s0 s1 s2 : Vec3} {x y : ℤ} (h : insideAt s0 s1 s2 x y) :
    0 ≤ (barycentric (samplePoint x y) s0 s1 s2).x ∧
    0 ≤ (barycentric (samplePoint x y) s0 s1 s2).y ∧
    0 ≤ (barycentric (samplePoint x y) s0 s1 s2).z ∧
    (barycentric (samplePoint x y) s0 s1 s2).x +
      (barycentric (samplePoint x y) s0 s1 s2).y +
      (barycentric (samplePoint x y) s0 s1 s2).z = 1 := by
  unfold insideAt at h
  push_neg at h
  obtain ⟨hx, hy, hz⟩ := h
  refine ⟨hx, hy, hz, ?_⟩
  by_cases hdeg : |baryDenom s0 s1 s2| < 1e-5
  · exfalso
    have := barycentric_of_denom_small hdeg (samplePoint x y)
    rw [this] at hx
    norm_num at hx
  · unfold barycentric
    rw [if_neg]
    · simp only [Vec3.mk_x, Vec3.mk_y, Vec3.mk_z]
      ring
    · exact hdeg

/-! ### Helper lemmas about the integer ranges of the scan loops -/

lemma mem_intRange {lo hi x : ℤ} : x ∈ intRange lo hi ↔ lo ≤ x ∧ x ≤ hi := by
  unfold intRange
  simp only [List.mem_map, List.mem_range]
  constructor
  · rintro ⟨i, hi', hx⟩
    omega
  · rintro ⟨h1, h2⟩
    refine ⟨(x - lo).toNat, ?_, ?_⟩ <;> omega

lemma intRange_eq_nil {lo hi : ℤ} (h : hi < lo) : intRange lo hi = [] := by
  unfold intRange
  have : (hi + 1 - lo).toNat = 0 := by omega
  rw [this]
  rfl

lemma nodup_intRange (lo hi : ℤ) : (intRange lo hi).Nodup := by
  unfold intRange
  apply List.Nodup.map
  · intro i j hij
    dsimp only at hij
    omega
  · exact List.nodup_range _

/-- Flat indices of distinct in-range cells are distinct: with
`0 ≤ x, x' < W` the index `y * W + x` determines both coordinates. -/
lemma flatIdx_inj {W x x' y y' : ℤ} (hx : 0 ≤ x) (hxW : x < W)
    (hx' : 0 ≤ x') (hx'W : x' < W) (h : flatIdx W x y = flatIdx W x' y') :
    x = x' ∧ y = y' := by
  unfold flatIdx at h
  have hW : 0 < W := lt_of_le_of_lt hx hxW
  have hxmod : (y * W + x) % W = x := by
    rw [add_comm, mul_comm, Int.add_mul_emod_self_left]
    exact Int.emod_eq_of_lt hx hxW
  have hxmod' : (y' * W + x') % W = x' := by
    rw [add_comm, mul_comm, Int.add_mul_emod_self_left]
    exact Int.emod_eq_of_lt hx' hx'W
  have hxx : x = x' := by rw [← hxmod, ← hxmod', h]
  refine ⟨hxx, ?_⟩
  have hyy : y * W = y' * W := by omega
  exact mul_right_cancel₀ hW.ne' hyy

/-! ### Per-cell characterization of the scan loops -/

lemma writeCell_depth_self (b : Buffers) (i : ℤ) (d : ℝ) (g : Char) :
    (writeCell b i d g).depth i = d := by
  unfold writeCell
  simp

lemma writeCell_chars_self (b : Buffers) (i : ℤ) (d : ℝ) (g : Char) :
    (writeCell b i d g).chars i = g := by
  unfold writeCell
  simp

lemma writeCell_depth_ne (b : Buffers) (i : ℤ) (d : ℝ) (g : Char) (j : ℤ) (h : j ≠ i) :
    (writeCell b i d g).depth j = b.depth j := by
  unfold writeCell
  simp [h]

lemma writeCell_chars_ne (b : Buffers) (i : ℤ) (d : ℝ) (g : Char) (j : ℤ) (h : j ≠ i) :
    (writeCell b i d g).chars j = b.chars j := by
  unfold writeCell
  simp [h]

/-- The per-pixel body in closed form: it writes the interpolated 1/w and
the glyph exactly when the cell is inside and strictly nearer, and leaves
the buffers untouched otherwise. -/
lemma shadePixel_spec (W : ℤ) (s0 s1 s2 : Vec3) (iw0 iw1 iw2 : ℝ)
    (g : Char) (b : Buffers) (x y : ℤ) :
    shadePixel W s0 s1 s2 iw0 iw1 iw2 g b x y =
      if insideAt s0 s1 s2 x y ∧
          interpAt s0 s1 s2 iw0 iw1 iw2 x y > b.depth (flatIdx W x y)
      then writeCell b (flatIdx W x y) (interpAt s0 s1 s2 iw0 iw1 iw2 x y) g
      else b := by
  simp only [shadePixel, insideAt, interpAt]
  split_ifs with h1 h2 h3 h3 <;> first | rfl | tauto

lemma shadePixel_ne (W : ℤ) (s0 s1 s2 : Vec3) (iw0 iw1 iw2 : ℝ)
    (g : Char) (b : Buffers) (x y i : ℤ) (h : i ≠ flatIdx W x y) :
    (shadePixel W s0 s1 s2 iw0 iw1 iw2 g b x y).depth i = b.depth i ∧
    (shadePixel W s0 s1 s2 iw0 iw1 iw2 g b x y).chars i = b.chars i := by
  rw [shadePixel_spec]
  split_ifs with hc
  · exact ⟨writeCell_depth_ne b _ _ g i h, writeCell_chars_ne b _ _ g i h⟩
  · exact ⟨rfl, rfl⟩

/-- Folding steps that each leave buffer slot `i` unchanged leaves slot
`i` unchanged. -/
lemma foldl_preserves (step : Buffers → ℤ → Buffers) (l : List ℤ) (i : ℤ)
    (h : ∀ b z, z ∈ l → (step b z).depth i = b.depth i ∧ (step b z).chars i = b.chars i) :
    ∀ b : Buffers, (l.foldl step b).depth i = b.depth i ∧
      (l.foldl step b).chars i = b.chars i := by
  induction l with
  | nil => exact fun b => ⟨rfl, rfl⟩
  | cons z l ih =>
    intro b
    simp only [List.foldl_cons]
    have h1 := h b z (List.mem_cons_self z l)
    have h2 := ih (fun b' z' hz' => h b' z' (List.mem_cons_of_mem z hz')) (step b z)
    exact ⟨h2.1.trans h1.1, h2.2.trans h1.2⟩

/-- Effect of one row of the scan loop on the slot of cell `(x0, y)`,
provided `x0` occurs once in the row. -/
lemma rowFold_at (W : ℤ) (s0 s1 s2 : Vec3) (iw0 iw1 iw2 : ℝ) (g : Char)
    (xs : List ℤ) (x0 y : ℤ) :
    xs.Nodup → x0 ∈ xs →
    (∀ x ∈ xs, flatIdx W x y = flatIdx W x0 y → x = x0) →
    ∀ b : Buffers,
      ((xs.foldl (fun b2 x => shadePixel W s0 s1 s2 iw0 iw1 iw2 g b2 x y) b).depth
          (flatIdx W x0 y) =
        (if insideAt s0 s1 s2 x0 y ∧
            interpAt s0 s1 s2 iw0 iw1 iw2 x0 y > b.depth (flatIdx W x0 y)
         then interpAt s0 s1 s2 iw0 iw1 iw2 x0 y else b.depth (flatIdx W x0 y)) ∧
       (xs.foldl (fun b2 x => shadePixel W s0 s1 s2 iw0 iw1 iw2 g b2 x y) b).chars
          (flatIdx W x0 y) =
        (if insideAt s0 s1 s2 x0 y ∧
            interpAt s0 s1 s2 iw0 iw1 iw2 x0 y > b.depth (flatIdx W x0 y)
         then g else b.chars (flatIdx W x0 y))) := by
  induction xs with
  | nil => intro _ hx0; cases hx0
  | cons x xs ih =>
    intro hnd hx0 huniq b
    simp only [List.foldl_cons]
    rcases List.mem_cons.mp hx0 with rfl | hx0'
    · have htail : ∀ b' x', x' ∈ xs →
          ((shadePixel W s0 s1 s2 iw0 iw1 iw2 g b' x' y).depth (flatIdx W x0 y) =
            b'.depth (flatIdx W x0 y) ∧
           (shadePixel W s0 s1 s2 iw0 iw1 iw2 g b' x' y).chars (flatIdx W x0 y) =
            b'.chars (flatIdx W x0 y)) := by
        intro b' x' hx'
        apply shadePixel_ne
        intro hcontra
        have hx'x : x' = x0 := huniq x' (List.mem_cons_of_mem x0 hx') hcontra.symm
        subst hx'x
        exact (List.nodup_cons.mp hnd).1 hx'
      have hrest := foldl_preserves
        (fun b2 x' => shadePixel W s0 s1 s2 iw0 iw1 iw2 g b2 x' y) xs (flatIdx W x0 y)
        (fun b' x' hx' => htail b' x' hx')
        (shadePixel W s0 s1 s2 iw0 iw1 iw2 g b x0 y)
      rw [hrest.1, hrest.2, shadePixel_spec]
      split_ifs with hc
      · exact ⟨writeCell_depth_self b _ _ g, writeCell_chars_self b _ _ g⟩
      · exact ⟨rfl, rfl⟩
    · have hxne : x ≠ x0 := by
        rintro rfl
        exact (List.nodup_cons.mp hnd).1 hx0'
      have hidx : flatIdx W x0 y ≠ flatIdx W x y := by
        intro hcontra
        exact hxne (huniq x (List.mem_cons_self x xs) hcontra.symm)
      have hstep := shadePixel_ne W s0 s1 s2 iw0 iw1 iw2 g b x y (flatIdx W x0 y) hidx
      have ih' := ih (List.nodup_cons.mp hnd).2 hx0'
        (fun x' hx' h' => huniq x' (List.mem_cons_of_mem x hx') h')
        (shadePixel W s0 s1 s2 iw0 iw1 iw2 g b x y)
      rw [ih'.1, ih'.2, hstep.1, hstep.2]
      exact ⟨rfl, rfl⟩

/-- Effect of the whole nested scan on the slot of cell `(x0, y0)`. -/
lemma colFold_at (W : ℤ) (s0 s1 s2 : Vec3) (iw0 iw1 iw2 : ℝ) (g : Char)
    (xs : List ℤ) (x0 : ℤ) (ys : List ℤ) (y0 : ℤ) :
    ys.Nodup → y0 ∈ ys → xs.Nodup → x0 ∈ xs →
    (∀ x ∈ xs, ∀ y ∈ ys, flatIdx W x y = flatIdx W x0 y0 → x = x0 ∧ y = y0) →
    ∀ b : Buffers,
      ((ys.foldl (fun acc y => xs.foldl
            (fun a2 x => shadePixel W s0 s1 s2 iw0 iw1 iw2 g a2 x y) acc) b).depth
          (flatIdx W x0 y0) =
        (if insideAt s0 s1 s2 x0 y0 ∧
            interpAt s0 s1 s2 iw0 iw1 iw2 x0 y0 > b.depth (flatIdx W x0 y0)
         then interpAt s0 s1 s2 iw0 iw1 iw2 x0 y0 else b.depth (flatIdx W x0 y0)) ∧
       (ys.foldl (fun acc y => xs.foldl
            (fun a2 x => shadePixel W s0 s1 s2 iw0 iw1 iw2 g a2 x y) acc) b).chars
          (flatIdx W x0 y0) =
        (if insideAt s0 s1 s2 x0 y0 ∧
            interpAt s0 s1 s2 iw0 iw1 iw2 x0 y0 > b.depth (flatIdx W x0 y0)
         then g else b.chars (flatIdx W x0 y0))) := by
  induction ys with
  | nil => intro _ hy0; cases hy0
  | cons y ys ih =>
    intro hynd hy0 hxnd hx0 huniq b
    simp only [List.foldl_cons]
    rcases List.mem_cons.mp hy0 with rfl | hy0'
    · have hrow := rowFold_at W s0 s1 s2 iw0 iw1 iw2 g xs x0 y0 hxnd hx0
        (fun x hx h' => (huniq x hx y0 (List.mem_cons_self y0 ys) h').1) b
      have htail : ∀ b' y', y' ∈ ys →
          ((xs.foldl (fun a2 x => shadePixel W s0 s1 s2 iw0 iw1 iw2 g a2 x y') b').depth
              (flatIdx W x0 y0) = b'.depth (flatIdx W x0 y0) ∧
           (xs.foldl (fun a2 x => shadePixel W s0 s1 s2 iw0 iw1 iw2 g a2 x y') b').chars
              (flatIdx W x0 y0) = b'.chars (flatIdx W x0 y0)) := by
        intro b' y' hy'
        apply foldl_preserves
        intro b2 x' hx'
        apply shadePixel_ne
        intro hcontra
        have := (huniq x' hx' y' (List.mem_cons_of_mem y0 hy') hcontra.symm).2
        subst this
        exact (List.nodup_cons.mp hynd).1 hy'
      have hrest := foldl_preserves
        (fun acc y' => xs.foldl (fun a2 x => shadePixel W s0 s1 s2 iw0 iw1 iw2 g a2 x y') acc)
        ys (flatIdx W x0 y0) (fun b' y' hy' => htail b' y' hy')
        (xs.foldl (fun a2 x => shadePixel W s0 s1 s2 iw0 iw1 iw2 g a2 x y0) b)
      rw [hrest.1, hrest.2, hrow.1, hrow.2]
      exact ⟨rfl, rfl⟩
    · have hyne : y ≠ y0 := by
        rintro rfl
        exact (List.nodup_cons.mp hynd).1 hy0'
      have hrow0 : ∀ b2 x', x' ∈ xs →
          ((shadePixel W s0 s1 s2 iw0 iw1 iw2 g b2 x' y).depth (flatIdx W x0 y0) =
            b2.depth (flatIdx W x0 y0) ∧
           (shadePixel W s0 s1 s2 iw0 iw1 iw2 g b2 x' y).chars (flatIdx W x0 y0) =
            b2.chars (flatIdx W x0 y0)) := by
        intro b2 x' hx'
        apply shadePixel_ne
        intro hcontra
        exact hyne (huniq x' hx' y (List.mem_cons_self y ys) hcontra.symm).2
      have hstep := foldl_preserves
        (fun a2 x => shadePixel W s0 s1 s2 iw0 iw1 iw2 g a2 x y) xs (flatIdx W x0 y0)
        (fun b2 x' hx' => hrow0 b2 x' hx') b
      have ih' := ih (List.nodup_cons.mp hynd).2 hy0' hxnd hx0
        (fun x' hx' y' hy' h' => huniq x' hx' y' (List.mem_cons_of_mem y hy') h')
        (xs.foldl (fun a2 x => shadePixel W s0 s1 s2 iw0 iw1 iw2 g a2 x y) b)
      rw [ih'.1, ih'.2, hstep.1, hstep.2]
      exact ⟨rfl, rfl⟩

/-- Effect of `rasterRows` on the slot of a cell of its (clamped) range. -/
lemma rasterRows_at (W : ℤ) (s0 s1 s2 : Vec3) (iw0 iw1 iw2 : ℝ) (g : Char)
    (minX maxX minY maxY x y : ℤ)
    (hminX : 0 ≤ minX) (hmaxX : maxX ≤ W - 1)
    (hx1 : minX ≤ x) (hx2 : x ≤ maxX) (hy1 : minY ≤ y) (hy2 : y ≤ maxY) (b : Buffers) :
    ((rasterRows W s0 s1 s2 iw0 iw1 iw2 g minX maxX minY maxY b).depth (flatIdx W x y) =
      (if insideAt s0 s1 s2 x y ∧
          interpAt s0 s1 s2 iw0 iw1 iw2 x y > b.depth (flatIdx W x y)
       then interpAt s0 s1 s2 iw0 iw1 iw2 x y else b.depth (flatIdx W x y)) ∧
     (rasterRows W s0 s1 s2 iw0 iw1 iw2 g minX maxX minY maxY b).chars (flatIdx W x y) =
      (if insideAt s0 s1 s2 x y ∧
          interpAt s0 s1 s2 iw0 iw1 iw2 x y > b.depth (flatIdx W x y)
       then g else b.chars (flatIdx W x y))) := by
  unfold rasterRows
  apply colFold_at W s0 s1 s2 iw0 iw1 iw2 g (intRange minX maxX) x (intRange minY maxY) y
    (nodup_intRange _ _) (mem_intRange.mpr ⟨hy1, hy2⟩)
    (nodup_intRange _ _) (mem_intRange.mpr ⟨hx1, hx2⟩)
  intro x' hx' y' _ h'
  have hxb' := mem_intRange.mp hx'
  exact flatIdx_inj (le_trans hminX hxb'.1) (by omega)
    (le_trans hminX hx1) (by omega) h'

/-- A triangle that fails the back-face cull leaves the buffers
unchanged (the `continue` of src/main.cpp line 313). -/
lemma rasterizeTriangle_culled (W H : ℤ) (mvp : Mat4) (cam light v0 v1 v2 : Vec3)
    (b : Buffers)
    (h : 0 ≤ Vec3.dot (faceNormal v0 v1 v2) (viewVector cam v0)) :
    rasterizeTriangle W H mvp cam light v0 v1 v2 b = b := by
  unfold rasterizeTriangle
  rw [if_pos h]

/-- A triangle with some clip-space `w ≤ 0` leaves the buffers unchanged
(the `continue` of src/main.cpp lines 345-346). -/
lemma rasterizeTriangle_behind (W H : ℤ) (mvp : Mat4) (cam light v0 v1 v2 : Vec3)
    (b : Buffers)
    (h : (clipVert mvp v0).w ≤ 0 ∨ (clipVert mvp v1).w ≤ 0 ∨ (clipVert mvp v2).w ≤ 0) :
    rasterizeTriangle W H mvp cam light v0 v1 v2 b = b := by
  unfold rasterizeTriangle
  by_cases h1 : 0 ≤ Vec3.dot (faceNormal v0 v1 v2) (viewVector cam v0)
  · rw [if_pos h1]
  · rw [if_neg h1, if_pos h]

/-- Effect of rasterizing one triangle on the slot of a cell of its
clamped bounding box, for a triangle that reaches the scan loops. -/
lemma rasterizeTriangle_at (W H : ℤ) (mvp : Mat4) (cam light v0 v1 v2 : Vec3)
    (x y : ℤ) (b : Buffers)
    (h1 : notCulled cam v0 v1 v2) (h2 : wsPositive mvp v0 v1 v2)
    (h3 : inBBox W H mvp v0 v1 v2 x y) :
    ((rasterizeTriangle W H mvp cam light v0 v1 v2 b).depth (flatIdx W x y) =
      (if cellInside W H mvp v0 v1 v2 x y ∧
          cellInterp W H mvp v0 v1 v2 x y > b.depth (flatIdx W x y)
       then cellInterp W H mvp v0 v1 v2 x y else b.depth (flatIdx W x y)) ∧
     (rasterizeTriangle W H mvp cam light v0 v1 v2 b).chars (flatIdx W x y) =
      (if cellInside W H mvp v0 v1 v2 x y ∧
          cellInterp W H mvp v0 v1 v2 x y > b.depth (flatIdx W x y)
       then triangleGlyph light v0 v1 v2 else b.chars (flatIdx W x y))) := by
  unfold rasterizeTriangle
  rw [if_neg (not_le.mpr h1), if_neg]
  · unfold cellInside cellInterp
    exact rasterRows_at W _ _ _ _ _ _ _ _ _ _ _ x y
      (le_max_left 0 _) (min_le_left _ _) h3.1 h3.2.1 h3.2.2.1 h3.2.2.2 b
  · push_neg
    exact ⟨h2.1, h2.2.1, h2.2.2⟩

/-- The interpolated inverse w at an inside cell of a triangle whose
clip-space w components are all positive is strictly positive. -/
lemma cellInterp_pos (W H : ℤ) (mvp : Mat4) (v0 v1 v2 : Vec3) (x y : ℤ)
    (h2 : wsPositive mvp v0 v1 v2) (h4 : cellInside W H mvp v0 v1 v2 x y) :
    0 < cellInterp W H mvp v0 v1 v2 x y := by
  unfold cellInside at h4
  obtain ⟨hbx, hby, hbz, hsum⟩ := barycentric_inside_sum h4
  have hw0 : 0 < invW mvp v0 := by
    unfold invW
    exact one_div_pos.mpr h2.1
  have hw1 : 0 < invW mvp v1 := by
    unfold invW
    exact one_div_pos.mpr h2.2.1
  have hw2 : 0 < invW mvp v2 := by
    unfold invW
    exact one_div_pos.mpr h2.2.2
  unfold cellInterp interpAt
  set m := min (invW mvp v0) (min (invW mvp v1) (invW mvp v2)) with hm
  have hmpos : 0 < m := lt_min hw0 (lt_min hw1 hw2)
  have e0 : (barycentric (samplePoint x y) _ _ _).x * m ≤
      (barycentric (samplePoint x y) _ _ _).x * invW mvp v0 :=
    mul_le_mul_of_nonneg_left (min_le_left _ _) hbx
  have e1 : (barycentric (samplePoint x y) _ _ _).y * m ≤
      (barycentric (samplePoint x y) _ _ _).y * invW mvp v1 :=
    mul_le_mul_of_nonneg_left (le_trans (min_le_right _ _) (min_le_left _ _)) hby
  have e2 : (barycentric (samplePoint x y) _ _ _).z * m ≤
      (barycentric (samplePoint x y) _ _ _).z * invW mvp v2 :=
    mul_le_mul_of_nonneg_left (le_trans (min_le_right _ _) (min_le_right _ _)) hbz
  nlinarith [hsum, hmpos]

/-- Folding steps that never change the buffers is the identity. -/
lemma foldl_id {α : Type} (f : Buffers → α → Buffers) (l : List α)
    (h : ∀ b' a, a ∈ l → f b' a = b') : ∀ b : Buffers, l.foldl f b = b := by
  induction l with
  | nil => exact fun b => rfl
  | cons a l ih =>
    intro b
    simp only [List.foldl_cons]
    rw [h b a (List.mem_cons_self a l)]
    exact ih (fun b' a' ha' => h b' a' (List.mem_cons_of_mem a ha')) b

/-- A triangle whose screen-space projection has a near-zero barycentric
denominator writes nothing: every cell of its bounding box fails the
inside test. -/
lemma rasterizeTriangle_degenerate (W H : ℤ) (mvp : Mat4)
    (cam light v0 v1 v2 : Vec3) (b : Buffers)
    (h : |baryDenom (screenVert W H mvp v0) (screenVert W H mvp v1)
        (screenVert W H mvp v2)| < 1e-5) :
    rasterizeTriangle W H mvp cam light v0 v1 v2 b = b := by
  unfold rasterizeTriangle
  by_cases h1 : 0 ≤ Vec3.dot (faceNormal v0 v1 v2) (viewVector cam v0)
  · rw [if_pos h1]
  · rw [if_neg h1]
    by_cases h2 : (clipVert mvp v0).w ≤ 0 ∨ (clipVert mvp v1).w ≤ 0 ∨
        (clipVert mvp v2).w ≤ 0
    · rw [if_pos h2]
    · rw [if_neg h2]
      unfold rasterRows
      apply foldl_id
      intro b' y _
      apply foldl_id
      intro b2 x _
      rw [shadePixel_spec, if_neg]
      rintro ⟨hin, _⟩
      unfold insideAt at hin
      rw [barycentric_of_denom_small h (samplePoint x y)] at hin
      norm_num at hin

/-- Evaluation of the identity transform, used for concrete runs. -/
lemma identity_transform (v : Vec4) :
    Mat4.identity.transform v = ⟨v.x, v.y, v.z, v.w⟩ := by
  unfold Mat4.transform
  norm_num [show Mat4.identity.m 0 = 1 from rfl, show Mat4.identity.m 1 = 0 from rfl,
    show Mat4.identity.m 2 = 0 from rfl, show Mat4.identity.m 3 = 0 from rfl,
    show Mat4.identity.m 4 = 0 from rfl, show Mat4.identity.m 5 = 1 from rfl,
    show Mat4.identity.m 6 = 0 from rfl, show Mat4.identity.m 7 = 0 from rfl,
    show Mat4.identity.m 8 = 0 from rfl, show Mat4.identity.m 9 = 0 from rfl,
    show Mat4.identity.m 10 = 1 from rfl, show Mat4.identity.m 11 = 0 from rfl,
    show Mat4.identity.m 12 = 0 from rfl, show Mat4.identity.m 13 = 0 from rfl,
    show Mat4.identity.m 14 = 0 from rfl, show Mat4.identity.m 15 = 1 from rfl]

/-- Evaluation helper for `truncToInt` on nonnegative values. -/
lemma truncToInt_eq_of_nonneg {x : ℝ} {k : ℤ} (h0 : 0 ≤ x)
    (h1 : (k : ℝ) ≤ x) (h2 : x < (k : ℝ) + 1) : truncToInt x = k := by
  unfold truncToInt
  rw [if_pos h0, Int.floor_eq_iff]
  exact ⟨h1, h2⟩

/-! ### Claim theorems -/

/-- C1 (amended): the face normal is `normalize(cross(v1-v0, v2-v0))`, but
the view vector is computed from the camera toward the first vertex —
`normalize(v0 - cameraPos)`, not `cameraPos - v0` — and the triangle is
discarded entirely (no buffer cell is written) whenever
`dot(normal, viewVector) ≥ 0`; in particular a triangle whose normal
points away from the camera produces zero drawn cells. -/
theorem C1_backface_cull (W H : ℤ) (mvp : Mat4) (cam light v0 v1 v2 : Vec3)
    (b : Buffers)
    (h : 0 ≤ Vec3.dot (faceNormal v0 v1 v2) (viewVector cam v0)) :
    rasterizeTriangle W H mvp cam light v0 v1 v2 b = b :=
  rasterizeTriangle_culled W H mvp cam light v0 v1 v2 b h

/-- C1 witness: a triangle wound so its normal points away from the
camera at `(0,0,-5)` is culled, and the buffers are untouched. -/
theorem C1_backface_cull_witness :
    0 ≤ Vec3.dot (faceNormal ⟨0, 0, 0⟩ ⟨1, 0, 0⟩ ⟨0, 1, 0⟩)
      (viewVector ⟨0, 0, -5⟩ ⟨0, 0, 0⟩) ∧
    rasterizeTriangle 2 2 Mat4.identity ⟨0, 0, -5⟩ ⟨0, 0, 1⟩
      ⟨0, 0, 0⟩ ⟨1, 0, 0⟩ ⟨0, 1, 0⟩ clearedBuffers = clearedBuffers := by
  have h : 0 ≤ Vec3.dot (faceNormal ⟨0, 0, 0⟩ ⟨1, 0, 0⟩ ⟨0, 1, 0⟩)
      (viewVector ⟨0, 0, -5⟩ ⟨0, 0, 0⟩) := by
    unfold faceNormal viewVector
    apply dot_normalize_nonneg
    unfold Vec3.cross Vec3.subtract Vec3.dot
    norm_num
  exact ⟨h, C1_backface_cull 2 2 Mat4.identity ⟨0, 0, -5⟩ ⟨0, 0, 1⟩
    ⟨0, 0, 0⟩ ⟨1, 0, 0⟩ ⟨0, 1, 0⟩ clearedBuffers h⟩

/-- C1 counterexample: with the view vector of the claim —
`cameraPos - v0`, from the first vertex toward the camera — the dot
product at this triangle is negative, so the claim's "discarded exactly
when `dot ≥ 0`" predicts a draw; the code nevertheless discards the
triangle entirely (it writes no cells), because it actually uses
`v0 - cameraPos`. -/
theorem C1_view_vector_counterexample :
    Vec3.dot (faceNormal ⟨0, 0, 0⟩ ⟨1, 0, 0⟩ ⟨0, 1, 0⟩)
      (Vec3.subtract ⟨0, 0, -5⟩ ⟨0, 0, 0⟩) < 0 ∧
    rasterizeTriangle 2 2 Mat4.identity ⟨0, 0, -5⟩ ⟨0, 0, 1⟩
      ⟨0, 0, 0⟩ ⟨1, 0, 0⟩ ⟨0, 1, 0⟩ clearedBuffers = clearedBuffers := by
  constructor
  · have hc : Vec3.cross (Vec3.subtract ⟨1, 0, 0⟩ ⟨0, 0, 0⟩)
        (Vec3.subtract ⟨0, 1, 0⟩ ⟨0, 0, 0⟩) = (⟨0, 0, 1⟩ : Vec3) := by
      unfold Vec3.cross Vec3.subtract
      norm_num
    have hn : faceNormal ⟨0, 0, 0⟩ ⟨1, 0, 0⟩ ⟨0, 1, 0⟩ =
        Vec3.scale ⟨0, 0, 1⟩ (1 / 1) := by
      unfold faceNormal
      rw [hc]
      exact normalize_eq_of_sq one_pos (by unfold Vec3.dot; norm_num)
    rw [hn]
    unfold Vec3.scale Vec3.subtract Vec3.dot
    norm_num
  · apply rasterizeTriangle_culled
    unfold faceNormal viewVector
    apply dot_normalize_nonneg
    unfold Vec3.cross Vec3.subtract Vec3.dot
    norm_num

/-- C2: at a cell inside the triangle, the depth value and the glyph are
overwritten with the interpolated `invW` and the triangle's glyph when
the interpolated `invW` strictly exceeds the stored depth; otherwise —
in particular at equality — both buffers are left unchanged, so ties
keep the earlier-drawn triangle. -/
theorem C2_depth_test_strict (W : ℤ) (s0 s1 s2 : Vec3) (iw0 iw1 iw2 : ℝ)
    (g : Char) (b : Buffers) (x y : ℤ) (hin : insideAt s0 s1 s2 x y) :
    (interpAt s0 s1 s2 iw0 iw1 iw2 x y > b.depth (flatIdx W x y) →
      shadePixel W s0 s1 s2 iw0 iw1 iw2 g b x y =
        writeCell b (flatIdx W x y) (interpAt s0 s1 s2 iw0 iw1 iw2 x y) g) ∧
    (¬ interpAt s0 s1 s2 iw0 iw1 iw2 x y > b.depth (flatIdx W x y) →
      shadePixel W s0 s1 s2 iw0 iw1 iw2 g b x y = b) ∧
    (interpAt s0 s1 s2 iw0 iw1 iw2 x y = b.depth (flatIdx W x y) →
      shadePixel W s0 s1 s2 iw0 iw1 iw2 g b x y = b) := by
  refine ⟨?_, ?_, ?_⟩ <;> intro hcase <;> rw [shadePixel_spec]
  · rw [if_pos ⟨hin, hcase⟩]
  · rw [if_neg (fun hcond => hcase hcond.2)]
  · rw [if_neg]
    rintro ⟨_, hgt⟩
    rw [hcase] at hgt
    exact lt_irrefl _ hgt

/-- C2 witness: the cell center `(0.5, 0.5)` lies inside the screen
triangle `(0,0) (2,0) (0,2)`, and with the cleared depth buffer the
strict test fires and writes depth and glyph. -/
theorem C2_depth_test_strict_witness :
    insideAt ⟨0, 0, 0⟩ ⟨2, 0, 0⟩ ⟨0, 2, 0⟩ 0 0 ∧
    (interpAt ⟨0, 0, 0⟩ ⟨2, 0, 0⟩ ⟨0, 2, 0⟩ 1 1 1 0 0 >
        clearedBuffers.depth (flatIdx 2 0 0) →
      shadePixel 2 ⟨0, 0, 0⟩ ⟨2, 0, 0⟩ ⟨0, 2, 0⟩ 1 1 1 '@' clearedBuffers 0 0 =
        writeCell clearedBuffers (flatIdx 2 0 0)
          (interpAt ⟨0, 0, 0⟩ ⟨2, 0, 0⟩ ⟨0, 2, 0⟩ 1 1 1 0 0) '@') := by
  have hin : insideAt ⟨0, 0, 0⟩ ⟨2, 0, 0⟩ ⟨0, 2, 0⟩ 0 0 := by
    unfold insideAt barycentric samplePoint Vec3.subtract Vec3.dot
    norm_num
  exact ⟨hin,
    (C2_depth_test_strict 2 ⟨0, 0, 0⟩ ⟨2, 0, 0⟩ ⟨0, 2, 0⟩ 1 1 1 '@'
      clearedBuffers 0 0 hin).1⟩

/-- C6: if any of the three vertices of a triangle has clip-space
`w ≤ 0` under the model-view-projection matrix, the whole triangle is
discarded and neither buffer is written at any cell. -/
theorem C6_behind_camera_discard (W H : ℤ) (mvp : Mat4)
    (cam light v0 v1 v2 : Vec3) (b : Buffers)
    (h : (clipVert mvp v0).w ≤ 0 ∨ (clipVert mvp v1).w ≤ 0 ∨
      (clipVert mvp v2).w ≤ 0) :
    rasterizeTriangle W H mvp cam light v0 v1 v2 b = b :=
  rasterizeTriangle_behind W H mvp cam light v0 v1 v2 b h

/-- C6 witness: under the zero matrix every vertex lands at `w = 0`,
and this front-facing triangle is discarded without touching the
buffers. -/
theorem C6_behind_camera_discard_witness :
    ((clipVert ⟨fun _ => 0⟩ ⟨0, 0, 0⟩).w ≤ 0 ∨
     (clipVert ⟨fun _ => 0⟩ ⟨0, 1, 0⟩).w ≤ 0 ∨
     (clipVert ⟨fun _ => 0⟩ ⟨1, 0, 0⟩).w ≤ 0) ∧
    rasterizeTriangle 2 2 ⟨fun _ => 0⟩ ⟨0, 0, -5⟩ ⟨0, 0, 1⟩
      ⟨0, 0, 0⟩ ⟨0, 1, 0⟩ ⟨1, 0, 0⟩ clearedBuffers = clearedBuffers := by
  have h : ((clipVert ⟨fun _ => 0⟩ ⟨0, 0, 0⟩).w ≤ 0 ∨
      (clipVert ⟨fun _ => 0⟩ ⟨0, 1, 0⟩).w ≤ 0 ∨
      (clipVert ⟨fun _ => 0⟩ ⟨1, 0, 0⟩).w ≤ 0) := by
    left
    unfold clipVert Mat4.transform
    norm_num
  exact ⟨h, C6_behind_camera_discard 2 2 ⟨fun _ => 0⟩ ⟨0, 0, -5⟩ ⟨0, 0, 1⟩
    ⟨0, 0, 0⟩ ⟨0, 1, 0⟩ ⟨1, 0, 0⟩ clearedBuffers h⟩

/-- C9 (amended): the program prints the usage message on stderr and
exits with code 1 exactly when fewer than three argv entries (program
name plus two positional arguments) are given; extra arguments beyond
the two positional ones are accepted and ignored rather than rejected. -/
theorem C9_usage_iff_too_few_args (argv : List String) :
    parseArgs argv = none ↔ argv.length < 3 := by
  unfold parseArgs
  split_ifs with h
  · simp [h]
  · simp [h]

/-- C9 counterexample: an invocation with one extra argument is not
rejected — the program proceeds with the first two positional
arguments, contradicting the claim that extra arguments produce a usage
error. -/
theorem C9_extra_args_counterexample :
    parseArgs ["prog", "model.obj", "font.ttf", "extra"] =
      some ("model.obj", "font.ttf") := by
  rfl

/-- C7 (amended): `normalize(v)` has Euclidean length exactly 1 whenever
`length(v) > 0`, and equals the zero vector exactly when `length(v) = 0`;
the code's threshold is exactly zero, not a positive ε, and the division
is always guarded by the `len > 0` test. -/
theorem C7_normalize_unit_or_zero (v : Vec3) :
    (0 < Vec3.length v → Vec3.length (Vec3.normalize v) = 1) ∧
    (Vec3.normalize v = ⟨0, 0, 0⟩ ↔ Vec3.length v = 0) := by
  constructor
  · intro hpos
    have hd : 0 < Vec3.dot v v := by
      by_contra hc
      push_neg at hc
      have h0 : Vec3.dot v v = 0 := le_antisymm hc (dot_self_nonneg v)
      unfold Vec3.length at hpos
      rw [h0, Real.sqrt_zero] at hpos
      exact lt_irrefl 0 hpos
    unfold Vec3.normalize
    rw [if_pos hpos]
    unfold Vec3.length at hpos ⊢
    rw [dot_scale_scale]
    have hone : 1 / Real.sqrt (Vec3.dot v v) * (1 / Real.sqrt (Vec3.dot v v)) *
        Vec3.dot v v = 1 := by
      have hsqrt : 0 < Real.sqrt (Vec3.dot v v) := Real.sqrt_pos.mpr hd
      field_simp
    rw [hone, Real.sqrt_one]
  · constructor
    · intro h0
      by_contra hne
      have hpos : 0 < Vec3.length v :=
        lt_of_le_of_ne (length_nonneg v) (Ne.symm hne)
      unfold Vec3.normalize at h0
      rw [if_pos hpos] at h0
      unfold Vec3.scale at h0
      rw [Vec3.mk.injEq] at h0
      have hinv : 1 / Vec3.length v ≠ 0 := by
        exact one_div_ne_zero hpos.ne'
      have hvx : v.x = 0 := by
        rcases mul_eq_zero.mp h0.1 with h | h
        · exact h
        · exact absurd h hinv
      have hvy : v.y = 0 := by
        rcases mul_eq_zero.mp h0.2.1 with h | h
        · exact h
        · exact absurd h hinv
      have hvz : v.z = 0 := by
        rcases mul_eq_zero.mp h0.2.2 with h | h
        · exact h
        · exact absurd h hinv
      apply hne
      unfold Vec3.length Vec3.dot
      rw [hvx, hvy, hvz]
      norm_num
    · intro h0
      unfold Vec3.normalize
      rw [h0, if_neg (lt_irrefl 0)]

/-- C7 witness: the vector `(3, 4, 0)` has positive length, and its
normalization has length 1. -/
theorem C7_normalize_unit_or_zero_witness :
    0 < Vec3.length ⟨3, 4, 0⟩ ∧ Vec3.length (Vec3.normalize ⟨3, 4, 0⟩) = 1 := by
  have hpos : 0 < Vec3.length ⟨3, 4, 0⟩ := by
    unfold Vec3.length
    apply Real.sqrt_pos.mpr
    unfold Vec3.dot
    norm_num
  exact ⟨hpos, (C7_normalize_unit_or_zero ⟨3, 4, 0⟩).1 hpos⟩

/-- C7 counterexample: no positive ε makes "`normalize(v)` is the zero
vector whenever `length(v) ≤ ε`" true — for any `ε > 0` the vector
`(ε/2, 0, 0)` has length `ε/2 ≤ ε` yet normalizes to `(1, 0, 0)`. -/
theorem C7_epsilon_counterexample :
    ¬ ∃ ε : ℝ, 0 < ε ∧
      ∀ v : Vec3, Vec3.length v ≤ ε → Vec3.normalize v = ⟨0, 0, 0⟩ := by
  rintro ⟨ε, hε, h⟩
  have hlen : Vec3.length ⟨ε / 2, 0, 0⟩ = ε / 2 := by
    unfold Vec3.length Vec3.dot
    simp only [Vec3.mk_x, Vec3.mk_y, Vec3.mk_z]
    rw [mul_zero, add_zero, add_zero, Real.sqrt_mul_self (by linarith)]
  have h2 := h ⟨ε / 2, 0, 0⟩ (by rw [hlen]; linarith)
  unfold Vec3.normalize at h2
  rw [hlen, if_pos (by linarith)] at h2
  unfold Vec3.scale at h2
  rw [Vec3.mk.injEq] at h2
  have hx := h2.1
  simp only [Vec3.mk_x] at hx
  have hone : ε / 2 * (1 / (ε / 2)) = 1 := by
    field_simp
  rw [hone] at hx
  exact one_ne_zero hx

/-- C8: a degenerate triangle — `|d00*d11 - d01*d01| < 1e-5` — makes
`barycentric` return `(-1, -1, -1)` for every query point, and a
triangle whose screen projection is degenerate in this sense contributes
no coverage: the rasterizer writes no frame-buffer or depth-buffer
cell for it. -/
theorem C8_degenerate_no_coverage (a b c p : Vec3) (W H : ℤ) (mvp : Mat4)
    (cam light v0 v1 v2 : Vec3) (buf : Buffers)
    (h1 : |baryDenom a b c| < 1e-5)
    (h2 : |baryDenom (screenVert W H mvp v0) (screenVert W H mvp v1)
        (screenVert W H mvp v2)| < 1e-5) :
    barycentric p a b c = ⟨-1, -1, -1⟩ ∧
    rasterizeTriangle W H mvp cam light v0 v1 v2 buf = buf :=
  ⟨barycentric_of_denom_small h1 p,
   rasterizeTriangle_degenerate W H mvp cam light v0 v1 v2 buf h2⟩

/-- C8 witness: the fully collapsed triangle (all vertices at the
origin) is degenerate both in raw coordinates and after projection by
the identity matrix, so its rasterization changes nothing. -/
theorem C8_degenerate_no_coverage_witness :
    |baryDenom ⟨0, 0, 0⟩ ⟨0, 0, 0⟩ ⟨0, 0, 0⟩| < 1e-5 ∧
    |baryDenom (screenVert 2 2 Mat4.identity ⟨0, 0, 0⟩)
      (screenVert 2 2 Mat4.identity ⟨0, 0, 0⟩)
      (screenVert 2 2 Mat4.identity ⟨0, 0, 0⟩)| < 1e-5 ∧
    (barycentric ⟨1, 1, 0⟩ ⟨0, 0, 0⟩ ⟨0, 0, 0⟩ ⟨0, 0, 0⟩ = ⟨-1, -1, -1⟩ ∧
     rasterizeTriangle 2 2 Mat4.identity ⟨0, 2, -5⟩ ⟨0, 0, 1⟩
       ⟨0, 0, 0⟩ ⟨0, 0, 0⟩ ⟨0, 0, 0⟩ clearedBuffers = clearedBuffers) := by
  have h1 : |baryDenom ⟨0, 0, 0⟩ ⟨0, 0, 0⟩ ⟨0, 0, 0⟩| < 1e-5 := by
    unfold baryDenom Vec3.subtract Vec3.dot
    norm_num
  have h2 : |baryDenom (screenVert 2 2 Mat4.identity ⟨0, 0, 0⟩)
      (screenVert 2 2 Mat4.identity ⟨0, 0, 0⟩)
      (screenVert 2 2 Mat4.identity ⟨0, 0, 0⟩)| < 1e-5 := by
    unfold baryDenom Vec3.subtract Vec3.dot
    norm_num
  exact ⟨h1, h2, C8_degenerate_no_coverage ⟨0, 0, 0⟩ ⟨0, 0, 0⟩ ⟨0, 0, 0⟩
    ⟨1, 1, 0⟩ 2 2 Mat4.identity ⟨0, 2, -5⟩ ⟨0, 0, 1⟩
    ⟨0, 0, 0⟩ ⟨0, 0, 0⟩ ⟨0, 0, 0⟩ clearedBuffers h1 h2⟩

/-- C10: the integer bounding box is clamped to `minX ≥ 0`,
`maxX ≤ W-1`, `minY ≥ 0`, `maxY ≤ H-1`, and hence the flat index
`y*W + x` of every cell scanned by the per-pixel loop lies in
`[0, W*H)`: every depth-buffer and frame-buffer access is in bounds. -/
theorem C10_scan_indices_in_bounds (W H : ℤ) (mvp : Mat4) (v0 v1 v2 : Vec3)
    (x y : ℤ) (hW : 0 < W) (hH : 0 < H)
    (hx1 : bboxMinX W H mvp v0 v1 v2 ≤ x) (hx2 : x ≤ bboxMaxX W H mvp v0 v1 v2)
    (hy1 : bboxMinY W H mvp v0 v1 v2 ≤ y) (hy2 : y ≤ bboxMaxY W H mvp v0 v1 v2) :
    0 ≤ bboxMinX W H mvp v0 v1 v2 ∧ bboxMaxX W H mvp v0 v1 v2 ≤ W - 1 ∧
    0 ≤ bboxMinY W H mvp v0 v1 v2 ∧ bboxMaxY W H mvp v0 v1 v2 ≤ H - 1 ∧
    0 ≤ flatIdx W x y ∧ flatIdx W x y < W * H := by
  have h1 : (0 : ℤ) ≤ bboxMinX W H mvp v0 v1 v2 := by
    unfold bboxMinX
    exact le_max_left 0 _
  have h2 : bboxMaxX W H mvp v0 v1 v2 ≤ W - 1 := by
    unfold bboxMaxX
    exact min_le_left _ _
  have h3 : (0 : ℤ) ≤ bboxMinY W H mvp v0 v1 v2 := by
    unfold bboxMinY
    exact le_max_left 0 _
  have h4 : bboxMaxY W H mvp v0 v1 v2 ≤ H - 1 := by
    unfold bboxMaxY
    exact min_le_left _ _
  refine ⟨h1, h2, h3, h4, ?_, ?_⟩
  · unfold flatIdx
    have hx0 : 0 ≤ x := le_trans h1 hx1
    have hy0 : 0 ≤ y := le_trans h3 hy1
    nlinarith
  · unfold flatIdx
    have hxW : x ≤ W - 1 := le_trans hx2 h2
    have hyH : y ≤ H - 1 := le_trans hy2 h4
    have hx0 : 0 ≤ x := le_trans h1 hx1
    have hy0 : 0 ≤ y := le_trans h3 hy1
    nlinarith

/-- Cast of an integer truncates to itself. -/
lemma truncToInt_intCast (n : ℤ) : truncToInt ((n : ℝ)) = n := by
  unfold truncToInt
  split_ifs with h
  · exact Int.floor_intCast n
  · exact Int.ceil_intCast n

/-- The glyph for a positive intensity is the blank space exactly when
the intensity is below 1/9 (index `trunc(9·i)` clamps to 0). -/
lemma get_ascii_char_blank_iff {i : ℝ} (hi : 0 < i) :
    get_ascii_char i = ' ' ↔ i < 1 / 9 := by
  simp only [get_ascii_char]
  have hlen9 : ((ascii_chars.length : ℝ) - 1) = 9 := by norm_num [ascii_chars]
  have hlenz : ((ascii_chars.length : ℤ) - 1) = 9 := by norm_num [ascii_chars]
  rw [hlen9, hlenz]
  have hge : (0 : ℝ) ≤ i * 9 := by positivity
  unfold truncToInt
  rw [if_pos hge]
  constructor
  · intro hblank
    by_contra hc
    push_neg at hc
    have h1 : (1 : ℤ) ≤ ⌊i * 9⌋ := by
      rw [Int.le_floor]
      push_cast
      linarith
    set n := ⌊i * 9⌋ with hn
    set t := (max 0 (min 9 n)).toNat with ht
    have ht1 : 1 ≤ t := by omega
    have ht9 : t ≤ 9 := by omega
    interval_cases t <;> exact absurd hblank (by decide)
  · intro hlt
    have hfl : ⌊i * 9⌋ = 0 := by
      rw [Int.floor_eq_zero_iff]
      constructor
      · exact hge
      · linarith
    rw [hfl]
    rfl

/-- C4 (amended): the glyph index is `intensity * (rampLength - 1)`
truncated toward zero (the C++ `static_cast<int>`), not rounded, then
clamped to `[0, rampLength - 1]`; a fully front-lit triangle
(intensity 1) still maps to the brightest glyph `'@'`. -/
theorem C4_glyph_truncated_index (x : ℝ) (k : ℤ) (h0 : 0 ≤ k) (h9 : k ≤ 9)
    (hlo : (k : ℝ) ≤ x * 9) (hhi : x * 9 < (k : ℝ) + 1) :
    get_ascii_char x = ascii_chars.getD k.toNat ' ' ∧ get_ascii_char 1 = '@' := by
  constructor
  · have hx0 : (0 : ℝ) ≤ x * 9 := le_trans (by exact_mod_cast h0) hlo
    simp only [get_ascii_char]
    have hlen : ((ascii_chars.length : ℝ) - 1) = 9 := by norm_num [ascii_chars]
    rw [hlen]
    rw [truncToInt_eq_of_nonneg hx0 hlo hhi]
    have hclamp : max 0 (min ((ascii_chars.length : ℤ) - 1) k) = k := by
      have hl : ((ascii_chars.length : ℤ) - 1) = 9 := by norm_num [ascii_chars]
      rw [hl]
      omega
    rw [hclamp]
  · simp only [get_ascii_char]
    have hlen : ((ascii_chars.length : ℝ) - 1) = 9 := by norm_num [ascii_chars]
    rw [hlen]
    rw [show truncToInt ((1 : ℝ) * 9) = 9 from
      truncToInt_eq_of_nonneg (by norm_num) (by norm_num) (by norm_num)]
    rfl

/-- C4 witness: intensity 1/2 has `1/2 · 9 = 4.5` in `[4, 5)`, so the
glyph is the ramp character at index 4. -/
theorem C4_glyph_truncated_index_witness :
    (0 : ℤ) ≤ 4 ∧ (4 : ℤ) ≤ 9 ∧ ((4 : ℤ) : ℝ) ≤ (1 / 2 : ℝ) * 9 ∧
    (1 / 2 : ℝ) * 9 < ((4 : ℤ) : ℝ) + 1 ∧
    (get_ascii_char (1 / 2) = ascii_chars.getD (4 : ℤ).toNat ' ' ∧
     get_ascii_char 1 = '@') :=
  ⟨by norm_num, by norm_num, by norm_num, by norm_num,
   C4_glyph_truncated_index (1 / 2) 4 (by norm_num) (by norm_num)
     (by norm_num) (by norm_num)⟩

/-- C4 counterexample: at intensity 0.95 the code truncates
`0.95 · 9 = 8.55` to index 8 and yields `'%'`, while the claim's
`round(8.55) = 9` would yield `'@'`. -/
theorem C4_round_counterexample :
    get_ascii_char (19 / 20) = '%' ∧ get_ascii_char_spec (19 / 20) = '@' ∧
    ('%' : Char) ≠ '@' := by
  refine ⟨?_, ?_, by decide⟩
  · simp only [get_ascii_char]
    have hlen : ((ascii_chars.length : ℝ) - 1) = 9 := by norm_num [ascii_chars]
    rw [hlen]
    rw [show truncToInt ((19 : ℝ) / 20 * 9) = 8 from
      truncToInt_eq_of_nonneg (by norm_num) (by norm_num) (by norm_num)]
    rfl
  · simp only [get_ascii_char_spec]
    have hlen : ((ascii_chars.length : ℝ) - 1) = 9 := by norm_num [ascii_chars]
    rw [hlen]
    rw [show round ((19 : ℝ) / 20 * 9) = 9 from by
      rw [round_eq, show (19 : ℝ) / 20 * 9 + 1 / 2 = 181 / 20 by norm_num,
        Int.floor_eq_iff] <;> norm_num]
    rfl

/-- C5 (amended): the shading intensity is indeed clamped below by the
0.1 ambient floor before glyph selection, but this does not keep the
glyph non-blank: the chosen glyph is the blank space exactly when the
clamped intensity is below 1/9 — in particular a culled-surviving
triangle whose raw intensity is at most 0.1 gets clamped intensity 0.1
and is drawn with the blank space glyph. -/
theorem C5_ambient_floor_blank_glyph (light v0 v1 v2 : Vec3) :
    triangleGlyph light v0 v1 v2 =
      get_ascii_char (max 0.1 (Vec3.dot (faceNormal v0 v1 v2)
        (Vec3.scale light (-1)))) ∧
    (triangleGlyph light v0 v1 v2 = ' ' ↔
      max 0.1 (Vec3.dot (faceNormal v0 v1 v2) (Vec3.scale light (-1))) < 1 / 9) := by
  refine ⟨rfl, ?_⟩
  unfold triangleGlyph
  exact get_ascii_char_blank_iff
    (lt_of_lt_of_le (by norm_num) (le_max_left 0.1 _))

/-- C5 counterexample: with the program's own camera and light, this
front-facing triangle (its normal faces the camera, so it survives the
back-face cull) has raw intensity `-2/3`, clamped to `0.1`, and its
chosen glyph is the blank space — a drawn surface can be blank. -/
theorem C5_blank_glyph_counterexample :
    Vec3.dot (faceNormal ⟨0, 2, -2⟩ ⟨0, 3, -2⟩ ⟨1, 2, -2⟩)
      (viewVector camera_pos ⟨0, 2, -2⟩) < 0 ∧
    triangleGlyph light_direction ⟨0, 2, -2⟩ ⟨0, 3, -2⟩ ⟨1, 2, -2⟩ = ' ' := by
  have hnormal : faceNormal ⟨0, 2, -2⟩ ⟨0, 3, -2⟩ ⟨1, 2, -2⟩ = ⟨0, 0, -1⟩ := by
    unfold faceNormal
    rw [show Vec3.cross (Vec3.subtract ⟨0, 3, -2⟩ ⟨0, 2, -2⟩)
        (Vec3.subtract ⟨1, 2, -2⟩ ⟨0, 2, -2⟩) = (⟨0, 0, -1⟩ : Vec3) from by
      unfold Vec3.cross Vec3.subtract
      norm_num]
    rw [normalize_eq_of_sq one_pos (by unfold Vec3.dot; norm_num)]
    unfold Vec3.scale
    norm_num
  have hview : viewVector camera_pos ⟨0, 2, -2⟩ = ⟨0, 0, 1⟩ := by
    unfold viewVector camera_pos
    rw [show Vec3.subtract ⟨0, 2, -2⟩ ⟨0, 2, -5⟩ = (⟨0, 0, 3⟩ : Vec3) from by
      unfold Vec3.subtract
      norm_num]
    rw [normalize_eq_of_sq (show (0 : ℝ) < 3 by norm_num)
      (by unfold Vec3.dot; norm_num)]
    unfold Vec3.scale
    norm_num
  have hlight : light_direction = ⟨1 / 3, -2 / 3, -2 / 3⟩ := by
    unfold light_direction
    rw [normalize_eq_of_sq (show (0 : ℝ) < 3 / 2 by norm_num)
      (by unfold Vec3.dot; norm_num)]
    unfold Vec3.scale
    norm_num
  constructor
  · rw [hnormal, hview]
    unfold Vec3.dot
    norm_num
  · unfold triangleGlyph
    rw [hnormal, hlight]
    rw [show Vec3.dot ⟨0, 0, -1⟩ (Vec3.scale ⟨1 / 3, -2 / 3, -2 / 3⟩ (-1)) =
        -(2 / 3) from by
      unfold Vec3.dot Vec3.scale
      norm_num]
    rw [max_eq_left (show (-(2 / 3) : ℝ) ≤ 0.1 by norm_num)]
    simp only [get_ascii_char]
    rw [show ((ascii_chars.length : ℝ) - 1) = 9 from by norm_num [ascii_chars]]
    rw [show truncToInt ((0.1 : ℝ) * 9) = 0 from
      truncToInt_eq_of_nonneg (by norm_num) (by norm_num) (by norm_num)]
    rfl

/-- C3: two triangles that both reach the scan loops and both cover a
cell, with different interpolated `invW` there, leave the same glyph at
that cell whichever is rasterized first into freshly cleared buffers:
the glyph of the triangle with the larger interpolated `invW` (the
nearer one).  Draw order does not matter. -/
theorem C3_draw_order_independent
    (W H : ℤ) (mvp : Mat4) (cam light : Vec3)
    (a0 a1 a2 b0 b1 b2 : Vec3) (x y : ℤ)
    (hA1 : notCulled cam a0 a1 a2) (hA2 : wsPositive mvp a0 a1 a2)
    (hA3 : inBBox W H mvp a0 a1 a2 x y) (hA4 : cellInside W H mvp a0 a1 a2 x y)
    (hB1 : notCulled cam b0 b1 b2) (hB2 : wsPositive mvp b0 b1 b2)
    (hB3 : inBBox W H mvp b0 b1 b2 x y) (hB4 : cellInside W H mvp b0 b1 b2 x y)
    (hne : cellInterp W H mvp a0 a1 a2 x y ≠ cellInterp W H mvp b0 b1 b2 x y) :
    (rasterizeTriangle W H mvp cam light b0 b1 b2
        (rasterizeTriangle W H mvp cam light a0 a1 a2 clearedBuffers)).chars
      (flatIdx W x y) =
    (rasterizeTriangle W H mvp cam light a0 a1 a2
        (rasterizeTriangle W H mvp cam light b0 b1 b2 clearedBuffers)).chars
      (flatIdx W x y) ∧
    (rasterizeTriangle W H mvp cam light b0 b1 b2
        (rasterizeTriangle W H mvp cam light a0 a1 a2 clearedBuffers)).chars
      (flatIdx W x y) =
    (if cellInterp W H mvp a0 a1 a2 x y > cellInterp W H mvp b0 b1 b2 x y
     then triangleGlyph light a0 a1 a2 else triangleGlyph light b0 b1 b2) := by
  set dA := cellInterp W H mvp a0 a1 a2 x y with hdA
  set dB := cellInterp W H mvp b0 b1 b2 x y with hdB
  have hdApos : 0 < dA := cellInterp_pos W H mvp a0 a1 a2 x y hA2 hA4
  have hdBpos : 0 < dB := cellInterp_pos W H mvp b0 b1 b2 x y hB2 hB4
  have hA := rasterizeTriangle_at W H mvp cam light a0 a1 a2 x y
    clearedBuffers hA1 hA2 hA3
  have hB := rasterizeTriangle_at W H mvp cam light b0 b1 b2 x y
    clearedBuffers hB1 hB2 hB3
  have hAdepth : (rasterizeTriangle W H mvp cam light a0 a1 a2
      clearedBuffers).depth (flatIdx W x y) = dA := by
    rw [hA.1, if_pos ⟨hA4, by exact hdApos⟩]
  have hAchars : (rasterizeTriangle W H mvp cam light a0 a1 a2
      clearedBuffers).chars (flatIdx W x y) = triangleGlyph light a0 a1 a2 := by
    rw [hA.2, if_pos ⟨hA4, by exact hdApos⟩]
  have hBdepth : (rasterizeTriangle W H mvp cam light b0 b1 b2
      clearedBuffers).depth (flatIdx W x y) = dB := by
    rw [hB.1, if_pos ⟨hB4, by exact hdBpos⟩]
  have hBchars : (rasterizeTriangle W H mvp cam light b0 b1 b2
      clearedBuffers).chars (flatIdx W x y) = triangleGlyph light b0 b1 b2 := by
    rw [hB.2, if_pos ⟨hB4, by exact hdBpos⟩]
  have hB' := rasterizeTriangle_at W H mvp cam light b0 b1 b2 x y
    (rasterizeTriangle W H mvp cam light a0 a1 a2 clearedBuffers) hB1 hB2 hB3
  have hA' := rasterizeTriangle_at W H mvp cam light a0 a1 a2 x y
    (rasterizeTriangle W H mvp cam light b0 b1 b2 clearedBuffers) hA1 hA2 hA3
  rcases lt_or_gt_of_ne hne with hlt | hgt
  · have e1 : (rasterizeTriangle W H mvp cam light b0 b1 b2
        (rasterizeTriangle W H mvp cam light a0 a1 a2 clearedBuffers)).chars
          (flatIdx W x y) = triangleGlyph light b0 b1 b2 := by
      rw [hB'.2, hAdepth, if_pos ⟨hB4, hlt⟩]
    have hcondA : ¬ (cellInside W H mvp a0 a1 a2 x y ∧
        dA > (rasterizeTriangle W H mvp cam light b0 b1 b2
          clearedBuffers).depth (flatIdx W x y)) := by
      rw [hBdepth]
      rintro ⟨_, hx'⟩
      exact lt_asymm hlt hx'
    have e2 : (rasterizeTriangle W H mvp cam light a0 a1 a2
        (rasterizeTriangle W H mvp cam light b0 b1 b2 clearedBuffers)).chars
          (flatIdx W x y) = triangleGlyph light b0 b1 b2 := by
      rw [hA'.2, if_neg hcondA, hBchars]
    rw [e1, e2]
    refine ⟨rfl, ?_⟩
    rw [if_neg (not_lt.mpr hlt.le)]
  · have hcondB : ¬ (cellInside W H mvp b0 b1 b2 x y ∧
        dB > (rasterizeTriangle W H mvp cam light a0 a1 a2
          clearedBuffers).depth (flatIdx W x y)) := by
      rw [hAdepth]
      rintro ⟨_, hx'⟩
      exact lt_asymm hgt hx'
    have e1 : (rasterizeTriangle W H mvp cam light b0 b1 b2
        (rasterizeTriangle W H mvp cam light a0 a1 a2 clearedBuffers)).chars
          (flatIdx W x y) = triangleGlyph light a0 a1 a2 := by
      rw [hB'.2, if_neg hcondB, hAchars]
    have e2 : (rasterizeTriangle W H mvp cam light a0 a1 a2
        (rasterizeTriangle W H mvp cam light b0 b1 b2 clearedBuffers)).chars
          (flatIdx W x y) = triangleGlyph light a0 a1 a2 := by
      rw [hA'.2, hBdepth, if_pos ⟨hA4, hgt⟩]
    rw [e1, e2]
    refine ⟨rfl, ?_⟩
    rw [if_pos hgt]

/-- Matrix for the C3 witness scene: x, y, z pass through and the
clip-space w equals the world z, so depth varies with z. -/
def mvpZW : Mat4 :=
  ⟨fun i => if i.val = 0 ∨ i.val = 5 ∨ i.val = 10 ∨ i.val = 11 then 1 else 0⟩

lemma mvpZW_transform (v : Vec4) : mvpZW.transform v = ⟨v.x, v.y, v.z, v.z⟩ := by
  unfold Mat4.transform
  norm_num [show mvpZW.m 0 = 1 from rfl, show mvpZW.m 1 = 0 from rfl,
    show mvpZW.m 2 = 0 from rfl, show mvpZW.m 3 = 0 from rfl,
    show mvpZW.m 4 = 0 from rfl, show mvpZW.m 5 = 1 from rfl,
    show mvpZW.m 6 = 0 from rfl, show mvpZW.m 7 = 0 from rfl,
    show mvpZW.m 8 = 0 from rfl, show mvpZW.m 9 = 0 from rfl,
    show mvpZW.m 10 = 1 from rfl, show mvpZW.m 11 = 1 from rfl,
    show mvpZW.m 12 = 0 from rfl, show mvpZW.m 13 = 0 from rfl,
    show mvpZW.m 14 = 0 from rfl, show mvpZW.m 15 = 0 from rfl]

lemma mvpZW_screen_a0 : screenVert 2 2 mvpZW ⟨-1, 1, 1⟩ = ⟨0, 0, 1⟩ := by
  unfold screenVert ndcVert invW clipVert
  simp only [mvpZW_transform]
  norm_num

lemma mvpZW_screen_a1 : screenVert 2 2 mvpZW ⟨1, 1, 1⟩ = ⟨2, 0, 1⟩ := by
  unfold screenVert ndcVert invW clipVert
  simp only [mvpZW_transform]
  norm_num

lemma mvpZW_screen_a2 : screenVert 2 2 mvpZW ⟨-1, -1, 1⟩ = ⟨0, 2, 1⟩ := by
  unfold screenVert ndcVert invW clipVert
  simp only [mvpZW_transform]
  norm_num

lemma mvpZW_screen_b0 : screenVert 2 2 mvpZW ⟨-2, 2, 2⟩ = ⟨0, 0, 1⟩ := by
  unfold screenVert ndcVert invW clipVert
  simp only [mvpZW_transform]
  norm_num

lemma mvpZW_screen_b1 : screenVert 2 2 mvpZW ⟨2, 2, 2⟩ = ⟨2, 0, 1⟩ := by
  unfold screenVert ndcVert invW clipVert
  simp only [mvpZW_transform]
  norm_num

lemma mvpZW_screen_b2 : screenVert 2 2 mvpZW ⟨-2, -2, 2⟩ = ⟨0, 2, 1⟩ := by
  unfold screenVert ndcVert invW clipVert
  simp only [mvpZW_transform]
  norm_num

lemma bbox_screen_unit (s0 s1 s2 : Vec3) (hs0 : s0 = ⟨0, 0, 1⟩)
    (hs1 : s1 = ⟨2, 0, 1⟩) (hs2 : s2 = ⟨0, 2, 1⟩) :
    max 0 (truncToInt (min (min s0.x s1.x) s2.x)) = 0 ∧
    min (2 - 1 : ℤ) (truncToInt ((⌈max (max s0.x s1.x) s2.x⌉ : ℤ) : ℝ)) = 1 ∧
    max 0 (truncToInt (min (min s0.y s1.y) s2.y)) = 0 ∧
    min (2 - 1 : ℤ) (truncToInt ((⌈max (max s0.y s1.y) s2.y⌉ : ℤ) : ℝ)) = 1 := by
  subst hs0 hs1 hs2
  simp only [Vec3.mk_x, Vec3.mk_y]
  have hmin : min (min (0 : ℝ) 2) 0 = 0 := by norm_num
  have hmin' : min (min (0 : ℝ) 0) 2 = 0 := by norm_num
  have hmax : max (max (0 : ℝ) 2) 0 = 2 := by norm_num
  have hmax' : max (max (0 : ℝ) 0) 2 = 2 := by norm_num
  have htr0 : truncToInt (0 : ℝ) = 0 :=
    truncToInt_eq_of_nonneg le_rfl (by norm_num) (by norm_num)
  have hceil : (⌈(2 : ℝ)⌉ : ℤ) = 2 := by norm_num
  refine ⟨?_, ?_, ?_, ?_⟩
  · rw [hmin, htr0]
    decide
  · rw [hmax, hceil, truncToInt_intCast]
    decide
  · rw [hmin', htr0]
    decide
  · rw [hmax', hceil, truncToInt_intCast]
    decide

/-- C3 witness: two parallel triangles with the same screen footprint at
depths z = 1 (triangle A, interpolated invW = 1) and z = 2 (triangle B,
interpolated invW = 1/2) both cover cell (0, 0); in either draw order
the cell ends with triangle A's glyph, the nearer one. -/
theorem C3_draw_order_independent_witness :
    notCulled camera_pos ⟨-1, 1, 1⟩ ⟨1, 1, 1⟩ ⟨-1, -1, 1⟩ ∧
    wsPositive mvpZW ⟨-1, 1, 1⟩ ⟨1, 1, 1⟩ ⟨-1, -1, 1⟩ ∧
    inBBox 2 2 mvpZW ⟨-1, 1, 1⟩ ⟨1, 1, 1⟩ ⟨-1, -1, 1⟩ 0 0 ∧
    cellInside 2 2 mvpZW ⟨-1, 1, 1⟩ ⟨1, 1, 1⟩ ⟨-1, -1, 1⟩ 0 0 ∧
    notCulled camera_pos ⟨-2, 2, 2⟩ ⟨2, 2, 2⟩ ⟨-2, -2, 2⟩ ∧
    wsPositive mvpZW ⟨-2, 2, 2⟩ ⟨2, 2, 2⟩ ⟨-2, -2, 2⟩ ∧
    inBBox 2 2 mvpZW ⟨-2, 2, 2⟩ ⟨2, 2, 2⟩ ⟨-2, -2, 2⟩ 0 0 ∧
    cellInside 2 2 mvpZW ⟨-2, 2, 2⟩ ⟨2, 2, 2⟩ ⟨-2, -2, 2⟩ 0 0 ∧
    cellInterp 2 2 mvpZW ⟨-1, 1, 1⟩ ⟨1, 1, 1⟩ ⟨-1, -1, 1⟩ 0 0 ≠
      cellInterp 2 2 mvpZW ⟨-2, 2, 2⟩ ⟨2, 2, 2⟩ ⟨-2, -2, 2⟩ 0 0 ∧
    ((rasterizeTriangle 2 2 mvpZW camera_pos ⟨0, 0, 1⟩ ⟨-2, 2, 2⟩ ⟨2, 2, 2⟩ ⟨-2, -2, 2⟩
        (rasterizeTriangle 2 2 mvpZW camera_pos ⟨0, 0, 1⟩ ⟨-1, 1, 1⟩ ⟨1, 1, 1⟩ ⟨-1, -1, 1⟩
          clearedBuffers)).chars (flatIdx 2 0 0) =
      (rasterizeTriangle 2 2 mvpZW camera_pos ⟨0, 0, 1⟩ ⟨-1, 1, 1⟩ ⟨1, 1, 1⟩ ⟨-1, -1, 1⟩
        (rasterizeTriangle 2 2 mvpZW camera_pos ⟨0, 0, 1⟩ ⟨-2, 2, 2⟩ ⟨2, 2, 2⟩ ⟨-2, -2, 2⟩
          clearedBuffers)).chars (flatIdx 2 0 0) ∧
     (rasterizeTriangle 2 2 mvpZW camera_pos ⟨0, 0, 1⟩ ⟨-2, 2, 2⟩ ⟨2, 2, 2⟩ ⟨-2, -2, 2⟩
        (rasterizeTriangle 2 2 mvpZW camera_pos ⟨0, 0, 1⟩ ⟨-1, 1, 1⟩ ⟨1, 1, 1⟩ ⟨-1, -1, 1⟩
          clearedBuffers)).chars (flatIdx 2 0 0) =
      (if cellInterp 2 2 mvpZW ⟨-1, 1, 1⟩ ⟨1, 1, 1⟩ ⟨-1, -1, 1⟩ 0 0 >
          cellInterp 2 2 mvpZW ⟨-2, 2, 2⟩ ⟨2, 2, 2⟩ ⟨-2, -2, 2⟩ 0 0
       then triangleGlyph ⟨0, 0, 1⟩ ⟨-1, 1, 1⟩ ⟨1, 1, 1⟩ ⟨-1, -1, 1⟩
       else triangleGlyph ⟨0, 0, 1⟩ ⟨-2, 2, 2⟩ ⟨2, 2, 2⟩ ⟨-2, -2, 2⟩)) := by
  have hA1 : notCulled camera_pos ⟨-1, 1, 1⟩ ⟨1, 1, 1⟩ ⟨-1, -1, 1⟩ := by
    unfold notCulled faceNormal viewVector
    apply dot_normalize_neg
    unfold Vec3.cross Vec3.subtract Vec3.dot camera_pos
    norm_num
  have hB1 : notCulled camera_pos ⟨-2, 2, 2⟩ ⟨2, 2, 2⟩ ⟨-2, -2, 2⟩ := by
    unfold notCulled faceNormal viewVector
    apply dot_normalize_neg
    unfold Vec3.cross Vec3.subtract Vec3.dot camera_pos
    norm_num
  have hA2 : wsPositive mvpZW ⟨-1, 1, 1⟩ ⟨1, 1, 1⟩ ⟨-1, -1, 1⟩ := by
    unfold wsPositive clipVert
    simp only [mvpZW_transform]
    norm_num
  have hB2 : wsPositive mvpZW ⟨-2, 2, 2⟩ ⟨2, 2, 2⟩ ⟨-2, -2, 2⟩ := by
    unfold wsPositive clipVert
    simp only [mvpZW_transform]
    norm_num
  have hbbA := bbox_screen_unit _ _ _ mvpZW_screen_a0 mvpZW_screen_a1 mvpZW_screen_a2
  have hbbB := bbox_screen_unit _ _ _ mvpZW_screen_b0 mvpZW_screen_b1 mvpZW_screen_b2
  have hA3 : inBBox 2 2 mvpZW ⟨-1, 1, 1⟩ ⟨1, 1, 1⟩ ⟨-1, -1, 1⟩ 0 0 := by
    unfold inBBox bboxMinX bboxMaxX bboxMinY bboxMaxY
    rw [hbbA.1, hbbA.2.1, hbbA.2.2.1, hbbA.2.2.2]
    norm_num
  have hB3 : inBBox 2 2 mvpZW ⟨-2, 2, 2⟩ ⟨2, 2, 2⟩ ⟨-2, -2, 2⟩ 0 0 := by
    unfold inBBox bboxMinX bboxMaxX bboxMinY bboxMaxY
    rw [hbbB.1, hbbB.2.1, hbbB.2.2.1, hbbB.2.2.2]
    norm_num
  have hA4 : cellInside 2 2 mvpZW ⟨-1, 1, 1⟩ ⟨1, 1, 1⟩ ⟨-1, -1, 1⟩ 0 0 := by
    unfold cellInside
    rw [mvpZW_screen_a0, mvpZW_screen_a1, mvpZW_screen_a2]
    unfold insideAt barycentric samplePoint Vec3.subtract Vec3.dot
    norm_num
  have hB4 : cellInside 2 2 mvpZW ⟨-2, 2, 2⟩ ⟨2, 2, 2⟩ ⟨-2, -2, 2⟩ 0 0 := by
    unfold cellInside
    rw [mvpZW_screen_b0, mvpZW_screen_b1, mvpZW_screen_b2]
    unfold insideAt barycentric samplePoint Vec3.subtract Vec3.dot
    norm_num
  have hiA : cellInterp 2 2 mvpZW ⟨-1, 1, 1⟩ ⟨1, 1, 1⟩ ⟨-1, -1, 1⟩ 0 0 = 1 := by
    unfold cellInterp
    rw [mvpZW_screen_a0, mvpZW_screen_a1, mvpZW_screen_a2]
    unfold interpAt invW clipVert
    simp only [mvpZW_transform]
    unfold barycentric samplePoint Vec3.subtract Vec3.dot
    norm_num
  have hiB : cellInterp 2 2 mvpZW ⟨-2, 2, 2⟩ ⟨2, 2, 2⟩ ⟨-2, -2, 2⟩ 0 0 = 1 / 2 := by
    unfold cellInterp
    rw [mvpZW_screen_b0, mvpZW_screen_b1, mvpZW_screen_b2]
    unfold interpAt invW clipVert
    simp only [mvpZW_transform]
    unfold barycentric samplePoint Vec3.subtract Vec3.dot
    norm_num
  have hne : cellInterp 2 2 mvpZW ⟨-1, 1, 1⟩ ⟨1, 1, 1⟩ ⟨-1, -1, 1⟩ 0 0 ≠
      cellInterp 2 2 mvpZW ⟨-2, 2, 2⟩ ⟨2, 2, 2⟩ ⟨-2, -2, 2⟩ 0 0 := by
    rw [hiA, hiB]
    norm_num
  exact ⟨hA1, hA2, hA3, hA4, hB1, hB2, hB3, hB4, hne,
    C3_draw_order_independent 2 2 mvpZW camera_pos ⟨0, 0, 1⟩
      ⟨-1, 1, 1⟩ ⟨1, 1, 1⟩ ⟨-1, -1, 1⟩ ⟨-2, 2, 2⟩ ⟨2, 2, 2⟩ ⟨-2, -2, 2⟩ 0 0
      hA1 hA2 hA3 hA4 hB1 hB2 hB3 hB4 hne⟩

/-- C10 witness: a 1×1 screen with the collapsed projected triangle at
the screen center has the clamped bounding box `[0,0] × [0,0]`, and the
single scanned cell's flat index 0 lies in `[0, 1·1)`. -/
theorem C10_scan_indices_in_bounds_witness :
    (0 : ℤ) < 1 ∧
    bboxMinX 1 1 Mat4.identity ⟨0, 0, 0⟩ ⟨0, 0, 0⟩ ⟨0, 0, 0⟩ ≤ 0 ∧
    (0 : ℤ) ≤ bboxMaxX 1 1 Mat4.identity ⟨0, 0, 0⟩ ⟨0, 0, 0⟩ ⟨0, 0, 0⟩ ∧
    bboxMinY 1 1 Mat4.identity ⟨0, 0, 0⟩ ⟨0, 0, 0⟩ ⟨0, 0, 0⟩ ≤ 0 ∧
    (0 : ℤ) ≤ bboxMaxY 1 1 Mat4.identity ⟨0, 0, 0⟩ ⟨0, 0, 0⟩ ⟨0, 0, 0⟩ ∧
    (0 ≤ flatIdx 1 0 0 ∧ flatIdx 1 0 0 < 1 * 1) := by
  have hs : screenVert 1 1 Mat4.identity ⟨0, 0, 0⟩ = ⟨1 / 2, 1 / 2, 0⟩ := by
    unfold screenVert ndcVert invW clipVert
    simp only [identity_transform]
    norm_num
  have htr : truncToInt (1 / 2 : ℝ) = 0 :=
    truncToInt_eq_of_nonneg (by norm_num) (by norm_num) (by norm_num)
  have hceil : (⌈(1 / 2 : ℝ)⌉ : ℤ) = 1 := by
    rw [Int.ceil_eq_iff] <;> norm_num
  have hminX : bboxMinX 1 1 Mat4.identity ⟨0, 0, 0⟩ ⟨0, 0, 0⟩ ⟨0, 0, 0⟩ = 0 := by
    unfold bboxMinX
    rw [hs]
    simp only [Vec3.mk_x, min_self]
    rw [htr]
    decide
  have hmaxX : bboxMaxX 1 1 Mat4.identity ⟨0, 0, 0⟩ ⟨0, 0, 0⟩ ⟨0, 0, 0⟩ = 0 := by
    unfold bboxMaxX
    rw [hs]
    simp only [Vec3.mk_x, max_self]
    rw [hceil, truncToInt_intCast]
    decide
  have hminY : bboxMinY 1 1 Mat4.identity ⟨0, 0, 0⟩ ⟨0, 0, 0⟩ ⟨0, 0, 0⟩ = 0 := by
    unfold bboxMinY
    rw [hs]
    simp only [Vec3.mk_y, min_self]
    rw [htr]
    decide
  have hmaxY : bboxMaxY 1 1 Mat4.identity ⟨0, 0, 0⟩ ⟨0, 0, 0⟩ ⟨0, 0, 0⟩ = 0 := by
    unfold bboxMaxY
    rw [hs]
    simp only [Vec3.mk_y, max_self]
    rw [hceil, truncToInt_intCast]
    decide
  have hmain := C10_scan_indices_in_bounds 1 1 Mat4.identity
    ⟨0, 0, 0⟩ ⟨0, 0, 0⟩ ⟨0, 0, 0⟩ 0 0 (by norm_num) (by norm_num)
    (by rw [hminX]) (by rw [hmaxX]) (by rw [hminY]) (by rw [hmaxY])
  exact ⟨by norm_num, by rw [hminX], by rw [hmaxX], by rw [hminY],
    by rw [hmaxY], hmain.2.2.2.2⟩

end AsciiRenderer
